import Mathlib

/-!
Shallow embedding of the qfinbox TVM calculation engine
(`src/qfinbox/tvm/{bonds,cashflow,annuities,loans}.py` together with
`src/qfinbox/core/{validators,exceptions}.py`) and verification of the
specification claims about it.

Modelling conventions:
* Python floats are modelled as exact rationals (`ℚ`) except where a
  real-valued exponent forces `ℝ` (the loans module, where the code raises
  `(1+r)` to the float power `years * payments_per_year`), and except for
  the IEEE special values `inf`/`-inf`/`nan` that the cash-flow module can
  produce, modelled by the type `F` below.
* `validate_positive` (validators.py) raises `ValidationError` for a
  non-positive argument; errors are modelled by `Except Err`, where `Err`
  records only the exception class (the message strings are irrelevant to
  the claims).
* The two scipy root-finders are external numerical routines: `fsolve` is
  modelled as an oracle `ℚ → SolveRes` supplied as an argument (the source
  only inspects the returned root and the convergence flag `ier`), and
  `brentq`'s root is an oracle argument while its documented same-sign
  bracket check (which raises `ValueError`) is modelled exactly.
-/

/-- Exception classes that the embedded code can signal.
`validation` is qfinbox's `ValidationError` (raised by `validate_positive`);
`valueErr` is Python's builtin `ValueError` (raised by scipy's `brentq` on a
same-sign bracket); `indexErr` is Python's `IndexError`; `calculation` is
qfinbox's `CalculationError`, which is defined in `core/exceptions.py` but
raised nowhere in the repository. -/
inductive Err
  | validation
  | valueErr
  | indexErr
  | calculation
deriving DecidableEq, Repr

/-- IEEE-style float results: a finite value, the two infinities, or NaN.
`np.nan` (returned by `internal_rate_of_return` on failure) is `F.nan`;
`np.inf` (returned by `payback_period` when cumulative cash never turns
positive) is `F.posInf`. -/
inductive F
  | fin (q : ℚ)
  | posInf
  | negInf
  | nan
deriving DecidableEq, Repr

/-- True exactly on finite float values. -/
def F.isFinite : F → Bool
  | F.fin _ => true
  | _ => false

/-- IEEE float division for the one unguarded division in
`profitability_index`: numpy division of a finite value by zero yields
`inf`/`-inf`/`nan` (with a warning, not an exception). -/
def fdiv (a b : ℚ) : F :=
  if b = 0 then (if 0 < a then F.posInf else if a < 0 then F.negInf else F.nan)
  else F.fin (a / b)

/-! ## Bond Valuator (`tvm/bonds.py`) -/

/-- `periods = int(years_to_maturity * payments_per_year)` (bonds.py line 47);
`int()` truncates toward zero, which is `floor` for the validated positive
arguments. -/
def bondPeriods (years : ℚ) (ppy : ℕ) : ℕ := (⌊years * (ppy : ℚ)⌋).toNat

/-- `coupon_payment = face_value * coupon_rate / payments_per_year`. -/
def bondCoupon (fv c : ℚ) (ppy : ℕ) : ℚ := fv * c / ppy

/-- `discount_rate = yield_to_maturity / payments_per_year`. -/
def bondRate (ytm : ℚ) (ppy : ℕ) : ℚ := ytm / ppy

/-- Value computed by `bond_price` after validation (bonds.py lines 47-57):
present value of the coupon annuity plus present value of the face. -/
def bond_priceVal (fv c years ytm : ℚ) (ppy : ℕ) : ℚ :=
  let n := bondPeriods years ppy
  let cp := bondCoupon fv c ppy
  let i := bondRate ytm ppy
  cp * (1 - ((1 + i) ^ n)⁻¹) / i + fv / (1 + i) ^ n

/-- `bond_price` with its five `validate_positive` calls. -/
def bond_price (fv c years ytm : ℚ) (ppy : ℕ) : Except Err ℚ :=
  if fv ≤ 0 then .error .validation
  else if c ≤ 0 then .error .validation
  else if years ≤ 0 then .error .validation
  else if ytm ≤ 0 then .error .validation
  else if ppy = 0 then .error .validation
  else .ok (bond_priceVal fv c years ytm ppy)

/-- `bond_yield_to_maturity` (bonds.py lines 93-108).  After validation it
calls `brentq(price_diff, 0.001, 1.0)`.  `brentq` first evaluates
`price_diff` at both bracket ends and raises `ValueError` when they have the
same strict sign; otherwise it iterates numerically to a root, modelled here
by the oracle argument `root`. -/
def bond_yield_to_maturity (root price fv c years : ℚ) (ppy : ℕ) : Except Err ℚ :=
  if price ≤ 0 then .error .validation
  else if fv ≤ 0 then .error .validation
  else if c ≤ 0 then .error .validation
  else if years ≤ 0 then .error .validation
  else if ppy = 0 then .error .validation
  else
    let fa := bond_priceVal fv c years (1/1000) ppy - price
    let fb := bond_priceVal fv c years 1 ppy - price
    if 0 < fa * fb then .error .valueErr
    else .ok root

/-- Cash flow at 1-based coupon period `t` out of `n` (bonds.py lines
160-163): the coupon, plus the face value on the final period. -/
def bondCF (fv cp : ℚ) (n t : ℕ) : ℚ := if t < n then cp else cp + fv

/-- One weight of the `bond_duration` loop (bonds.py lines 165-166):
`pv_cash_flow / bond_px` for period `t`. -/
def bondWeight (fv c years ytm : ℚ) (ppy : ℕ) (t : ℕ) : ℚ :=
  bondCF fv (bondCoupon fv c ppy) (bondPeriods years ppy) t
    / (1 + bondRate ytm ppy) ^ t
    / bond_priceVal fv c years ytm ppy

/-- Sum of the per-period discounted-cash-flow weights accumulated inside
`bond_duration`'s loop `for t in range(1, periods + 1)`. -/
def bond_duration_weightSum (fv c years ytm : ℚ) (ppy : ℕ) : ℚ :=
  ∑ t ∈ Finset.Icc 1 (bondPeriods years ppy), bondWeight fv c years ytm ppy t

/-- Value computed by `bond_duration` after validation (bonds.py lines
150-169): weighted time `Σ weight_t · (t / payments_per_year)`. -/
def bond_durationVal (fv c years ytm : ℚ) (ppy : ℕ) : ℚ :=
  ∑ t ∈ Finset.Icc 1 (bondPeriods years ppy),
    bondWeight fv c years ytm ppy t * ((t : ℚ) / ppy)

/-- `bond_duration` with its validation. -/
def bond_duration (fv c years ytm : ℚ) (ppy : ℕ) : Except Err ℚ :=
  if fv ≤ 0 then .error .validation
  else if c ≤ 0 then .error .validation
  else if years ≤ 0 then .error .validation
  else if ytm ≤ 0 then .error .validation
  else if ppy = 0 then .error .validation
  else .ok (bond_durationVal fv c years ytm ppy)

/-! ## Cash-Flow Analyzer (`tvm/cashflow.py`) -/

/-- `net_present_value`'s sum `Σ_t cash_flow_t / (1+rate)^t`, `t` from 0
(cashflow.py lines 41-44). -/
def npvVal (cf : List ℚ) (rate : ℚ) : ℚ :=
  (cf.enum.map (fun p => p.2 / (1 + rate) ^ p.1)).sum

/-- `net_present_value` (cashflow.py lines 12-44): only a type check on
`discount_rate` (always satisfied for a rational argument), no validation of
the cash-flow series. -/
def net_present_value (cf : List ℚ) (rate : ℚ) : Except Err ℚ :=
  .ok (npvVal cf rate)

/-- Outcome of one external `scipy.optimize.fsolve` call with
`full_output=True`: the source reads the root `irr[0][0]` and the
convergence flag `irr[2]` (`ier = 1` means converged), or one of the caught
exception classes `ValueError`/`RuntimeError`/`OverflowError` is raised. -/
inductive SolveRes
  | ok (root : ℚ) (ier : ℕ)
  | raises
deriving DecidableEq, Repr

/-- What `internal_rate_of_return`'s loop body does with one seed
(cashflow.py lines 80-89): an exception discards the seed; a converged root
is accepted only when the residual `|NPV(root)|` is below `1e-6`. -/
def irrSeed (cf : List ℚ) (res : SolveRes) : Option ℚ :=
  match res with
  | .raises => none
  | .ok root ier =>
      if ier = 1 ∧ |npvVal cf root| < 1/1000000 then some root else none

/-- The seed loop of `internal_rate_of_return`: first accepted seed wins,
otherwise `np.nan`. -/
def irrLoop (cf : List ℚ) (solver : ℚ → SolveRes) : List ℚ → F
  | [] => F.nan
  | g :: gs =>
      match irrSeed cf (solver g) with
      | some r => F.fin r
      | none => irrLoop cf solver gs

/-- `internal_rate_of_return` (cashflow.py lines 47-91) with the fsolve
oracle as an argument: tries the literal guess list
`[initial_guess, 0.05, 0.15, 0.25, -0.5, 0.5, 1.0]`. -/
def internal_rate_of_return (cf : List ℚ) (guess : ℚ) (solver : ℚ → SolveRes) : F :=
  irrLoop cf solver [guess, 5/100, 15/100, 25/100, -1/2, 1/2, 1]

/-- `np.cumsum` of the cash-flow list. -/
def cumSums (cf : List ℚ) : List ℚ := (cf.scanl (· + ·) 0).tail

/-- `payback_period` (cashflow.py lines 94-136): first index where the
cumulative sum turns strictly positive; `np.inf` when it never does; linear
interpolation `breakeven + |prev_cumulative| / cash_flow[breakeven]`
otherwise. -/
def payback_periodVal (cf : List ℚ) : F :=
  let cum := cumSums cf
  match cum.findIdx? (fun c => decide (0 < c)) with
  | none => F.posInf
  | some 0 => F.fin 0
  | some (k + 1) =>
      F.fin ((k : ℚ) + 1 + |cum.getD k 0| / cf.getD (k + 1) 0)

/-- `payback_period` performs no validation at all. -/
def payback_period (cf : List ℚ) : Except Err F :=
  .ok (payback_periodVal cf)

/-- `discounted_payback_period` (cashflow.py lines 139-172): validates the
rate, discounts the series, then reuses `payback_period`. -/
def discounted_payback_period (cf : List ℚ) (rate : ℚ) : Except Err F :=
  if rate ≤ 0 then .error .validation
  else .ok (payback_periodVal (cf.enum.map (fun p => p.2 / (1 + rate) ^ p.1)))

/-- `profitability_index` (cashflow.py lines 175-211): validates only the
rate, reads `cash_flows[0]` (an `IndexError` on an empty list), and divides
the PV of the remaining flows by `abs(cash_flows[0])` with no zero check —
the final division follows numpy float semantics (`fdiv`). -/
def profitability_index (cf : List ℚ) (rate : ℚ) : Except Err F :=
  if rate ≤ 0 then .error .validation
  else
    match cf with
    | [] => .error .indexErr
    | c0 :: rest =>
        let pv := (rest.enum.map (fun p => p.2 / (1 + rate) ^ (p.1 + 1))).sum
        .ok (fdiv pv |c0|)

/-! ## Annuity Calculator (`tvm/annuities.py`) -/

/-- Closed form of `ordinary_annuity_pv` (annuities.py line 37). -/
def ordinary_annuity_pvVal (payment rate : ℚ) (periods : ℕ) : ℚ :=
  payment * (1 - ((1 + rate) ^ periods)⁻¹) / rate

/-- `ordinary_annuity_pv` with its three `validate_positive` calls. -/
def ordinary_annuity_pv (payment rate : ℚ) (periods : ℕ) : Except Err ℚ :=
  if payment ≤ 0 then .error .validation
  else if rate ≤ 0 then .error .validation
  else if periods = 0 then .error .validation
  else .ok (ordinary_annuity_pvVal payment rate periods)

/-- Closed form of `ordinary_annuity_fv` (annuities.py line 71). -/
def ordinary_annuity_fvVal (payment rate : ℚ) (periods : ℕ) : ℚ :=
  payment * (((1 + rate) ^ periods - 1) / rate)

/-- `ordinary_annuity_fv` with its validation. -/
def ordinary_annuity_fv (payment rate : ℚ) (periods : ℕ) : Except Err ℚ :=
  if payment ≤ 0 then .error .validation
  else if rate ≤ 0 then .error .validation
  else if periods = 0 then .error .validation
  else .ok (ordinary_annuity_fvVal payment rate periods)

/-- `annuity_due_pv` (annuities.py line 101): literally
`ordinary_annuity_pv(payment, rate, periods) * (1 + rate)`, no validation of
its own. -/
def annuity_due_pv (payment rate : ℚ) (periods : ℕ) : Except Err ℚ :=
  (ordinary_annuity_pv payment rate periods).map (· * (1 + rate))

/-- `annuity_due_fv` (annuities.py line 131): literally
`ordinary_annuity_fv(payment, rate, periods) * (1 + rate)`. -/
def annuity_due_fv (payment rate : ℚ) (periods : ℕ) : Except Err ℚ :=
  (ordinary_annuity_fv payment rate periods).map (· * (1 + rate))

/-! ## Loan Amortizer (`tvm/loans.py`)

The loans module is embedded over `ℝ` because the source raises `(1 + r)`
to the float power `num_payments = years * payments_per_year`, which need
not be an integer (Python `**` on floats): `x ^ (y : ℝ)` below is
`Real.rpow`. -/

/-- Value computed by `loan_payment` after validation (loans.py lines
43-53), including the literal `rate_per_period == 0` branch of the source. -/
noncomputable def loan_paymentVal (principal annual_rate years : ℝ) (ppy : ℕ) : ℝ :=
  let r := annual_rate / ppy
  let n : ℝ := years * ppy
  if r = 0 then principal / n
  else principal * (r * (1 + r) ^ n) / ((1 + r) ^ n - 1)

/-- `loan_payment` with its four `validate_positive` calls (loans.py lines
38-41), which run before the `rate_per_period == 0` branch is reached. -/
noncomputable def loan_payment (principal annual_rate years : ℝ) (ppy : ℕ) : Except Err ℝ :=
  if principal ≤ 0 then .error .validation
  else if annual_rate ≤ 0 then .error .validation
  else if years ≤ 0 then .error .validation
  else if ppy = 0 then .error .validation
  else .ok (loan_paymentVal principal annual_rate years ppy)

/-- One row of the amortization schedule DataFrame. -/
structure Entry where
  payment : ℝ
  interest : ℝ
  principal : ℝ
  balance : ℝ

/-- The schedule loop of `amortization_schedule` (loans.py lines 189-213),
with the remaining iteration count as fuel: each period pays
`interest = balance * rate`, `principal = payment - interest`; if the new
balance would be negative the principal portion absorbs the difference and
the balance is clamped to `0`; the loop breaks as soon as the balance is
exactly `0` after appending that row. -/
noncomputable def amortRows (r pay : ℝ) : ℕ → ℝ → List Entry
  | 0, _ => []
  | n + 1, bal =>
      let interest := bal * r
      let princ := pay - interest
      let bal1 := bal - princ
      if bal1 < 0 then [⟨pay, interest, princ + bal1, 0⟩]
      else if bal1 = 0 then [⟨pay, interest, princ, 0⟩]
      else ⟨pay, interest, princ, bal1⟩ :: amortRows r pay n bal1

/-- `amortization_schedule` (loans.py lines 147-214): validation, then
`total_payments = int(years * payments_per_year)` iterations of the loop
starting from the full principal, with the payment from `loan_payment`. -/
noncomputable def amortization_schedule (principal annual_rate years : ℝ) (ppy : ℕ) :
    Except Err (List Entry) :=
  if principal ≤ 0 then .error .validation
  else if annual_rate ≤ 0 then .error .validation
  else if years ≤ 0 then .error .validation
  else if ppy = 0 then .error .validation
  else
    let r := annual_rate / ppy
    let total := (⌊years * (ppy : ℝ)⌋).toNat
    let pay := loan_paymentVal principal annual_rate years ppy
    .ok (amortRows r pay total principal)

/-- The balance column of a schedule. -/
def balances (l : List Entry) : List ℝ := l.map Entry.balance

/-- Closed form of the outstanding balance when `m` payments of `pay` at
periodic rate `r` remain: the present value `pay · (u^m − 1)/(r·u^m)` with
`u = 1 + r`.  The schedule loop's balance recurrence walks down this family. -/
noncomputable def balAt (r pay : ℝ) (m : ℕ) : ℝ :=
  pay * ((1 + r) ^ m - 1) / (r * (1 + r) ^ m)

/-! ## Helper lemmas -/

/-- The IRR seed loop is a first-match search over the seed list. -/
theorem irrLoop_eq_findSome (cf : List ℚ) (solver : ℚ → SolveRes) (l : List ℚ) :
    irrLoop cf solver l =
      ((l.findSome? fun g => irrSeed cf (solver g)).elim F.nan F.fin) := by
  induction l with
  | nil => rfl
  | cons g gs ih =>
      simp only [irrLoop, List.findSome?]
      cases h : irrSeed cf (solver g) <;> simp [h, ih]

/-- When every seed is rejected, the IRR loop falls through to `np.nan`. -/
theorem irrLoop_eq_nan (cf : List ℚ) (solver : ℚ → SolveRes) (l : List ℚ)
    (h : ∀ g ∈ l, irrSeed cf (solver g) = none) :
    irrLoop cf solver l = F.nan := by
  induction l with
  | nil => rfl
  | cons g gs ih =>
      simp only [irrLoop, h g (by simp)]
      exact ih fun g' hg' => h g' (by simp [hg'])

/-- Geometric sum of discount factors: the closed form used by
`bond_price` for the coupon annuity. -/
theorem geomSum_Icc (i : ℚ) (hi : i ≠ 0) (hu : (1 : ℚ) + i ≠ 0) (n : ℕ) :
    ∑ t ∈ Finset.Icc 1 n, (1 : ℚ) / (1 + i) ^ t = (1 - ((1 + i) ^ n)⁻¹) / i := by
  induction n with
  | zero => simp
  | succ n ih =>
      rw [Finset.sum_Icc_succ_top (Nat.le_add_left 1 n), ih]
      have hup : (1 + i) ^ n ≠ 0 := pow_ne_zero _ hu
      field_simp
      ring

/-- The `bond_price` closed form equals the sum of the discounted
cash flows `bondCF` over the coupon periods `1..n`, when there is at least
one coupon period. -/
theorem bondCF_sum_eq_price (fv cp i : ℚ) (n : ℕ) (hi : i ≠ 0) (hu : (1 : ℚ) + i ≠ 0)
    (hn : 1 ≤ n) :
    ∑ t ∈ Finset.Icc 1 n, bondCF fv cp n t / (1 + i) ^ t
      = cp * (1 - ((1 + i) ^ n)⁻¹) / i + fv / (1 + i) ^ n := by
  have key : ∀ t ∈ Finset.Icc 1 n,
      bondCF fv cp n t / (1 + i) ^ t
        = cp * (1 / (1 + i) ^ t) + (if t = n then fv / (1 + i) ^ n else 0) := by
    intro t ht
    rcases Finset.mem_Icc.mp ht with ⟨h1, h2⟩
    by_cases htn : t = n
    · subst htn
      simp only [bondCF]
      rw [if_neg (lt_irrefl t)]
      simp only [add_div, mul_one_div, div_eq_mul_inv, if_pos rfl, if_true, ite_true,
        eq_self_iff_true]
      ring
    · have hlt : t < n := lt_of_le_of_ne h2 htn
      simp only [bondCF]
      rw [if_pos hlt, if_neg htn, mul_one_div, add_zero]
  rw [Finset.sum_congr rfl key, Finset.sum_add_distrib, ← Finset.mul_sum,
    geomSum_Icc i hi hu n, Finset.sum_ite_eq' (Finset.Icc 1 n) n,
    if_pos (Finset.mem_Icc.mpr ⟨hn, le_refl n⟩), mul_div_assoc]

/-- `bond_priceVal` as the sum of discounted cash flows. -/
theorem bond_priceVal_eq_sum (fv c years ytm : ℚ) (ppy : ℕ)
    (hi : bondRate ytm ppy ≠ 0) (hu : (1 : ℚ) + bondRate ytm ppy ≠ 0)
    (hn : 1 ≤ bondPeriods years ppy) :
    bond_priceVal fv c years ytm ppy
      = ∑ t ∈ Finset.Icc 1 (bondPeriods years ppy),
          bondCF fv (bondCoupon fv c ppy) (bondPeriods years ppy) t
            / (1 + bondRate ytm ppy) ^ t := by
  rw [bondCF_sum_eq_price fv (bondCoupon fv c ppy) (bondRate ytm ppy)
    (bondPeriods years ppy) hi hu hn]
  rfl

/-- The periodic discount rate of a validated bond is positive. -/
theorem bondRate_pos (ytm : ℚ) (ppy : ℕ) (hytm : 0 < ytm) (hppy : 0 < ppy) :
    0 < bondRate ytm ppy := by
  have : (0 : ℚ) < (ppy : ℚ) := by exact_mod_cast hppy
  exact div_pos hytm this

/-- The coupon payment of a validated bond is nonnegative. -/
theorem bondCoupon_nonneg (fv c : ℚ) (ppy : ℕ) (hfv : 0 ≤ fv) (hc : 0 ≤ c) :
    0 ≤ bondCoupon fv c ppy := by
  unfold bondCoupon
  positivity

/-- Each per-period bond cash flow is nonnegative. -/
theorem bondCF_nonneg (fv cp : ℚ) (n t : ℕ) (hfv : 0 ≤ fv) (hcp : 0 ≤ cp) :
    0 ≤ bondCF fv cp n t := by
  unfold bondCF
  split
  · exact hcp
  · exact add_nonneg hcp hfv

/-- A validated bond has strictly positive price. -/
theorem bond_priceVal_pos (fv c years ytm : ℚ) (ppy : ℕ)
    (hfv : 0 < fv) (hc : 0 ≤ c) (hytm : 0 < ytm) (hppy : 0 < ppy) :
    0 < bond_priceVal fv c years ytm ppy := by
  have hi : 0 < bondRate ytm ppy := bondRate_pos ytm ppy hytm hppy
  have hcp : 0 ≤ bondCoupon fv c ppy := bondCoupon_nonneg fv c ppy hfv.le hc
  have hu : (0 : ℚ) < 1 + bondRate ytm ppy := by linarith
  have hun : (1 : ℚ) ≤ (1 + bondRate ytm ppy) ^ bondPeriods years ppy :=
    one_le_pow₀ (by linarith)
  unfold bond_priceVal
  have h1 : 0 ≤ bondCoupon fv c ppy
      * (1 - ((1 + bondRate ytm ppy) ^ bondPeriods years ppy)⁻¹) / bondRate ytm ppy := by
    have : ((1 + bondRate ytm ppy) ^ bondPeriods years ppy)⁻¹ ≤ 1 :=
      inv_le_one_of_one_le₀ hun
    have h2 : (0 : ℚ) ≤ 1 - ((1 + bondRate ytm ppy) ^ bondPeriods years ppy)⁻¹ := by
      linarith
    positivity
  have h3 : 0 < fv / (1 + bondRate ytm ppy) ^ bondPeriods years ppy :=
    div_pos hfv (pow_pos hu _)
  exact add_pos_of_nonneg_of_pos h1 h3

/-- `bond_priceVal` is antitone in the yield (weakly, for any number of
coupon periods including zero). -/
theorem bond_priceVal_anti (fv c years y1 y2 : ℚ) (ppy : ℕ)
    (hfv : 0 < fv) (hc : 0 ≤ c) (hppy : 0 < ppy) (hy1 : 0 < y1) (h12 : y1 ≤ y2) :
    bond_priceVal fv c years y2 ppy ≤ bond_priceVal fv c years y1 ppy := by
  have hi1 : 0 < bondRate y1 ppy := bondRate_pos y1 ppy hy1 hppy
  have hi2 : 0 < bondRate y2 ppy := bondRate_pos y2 ppy (lt_of_lt_of_le hy1 h12) hppy
  have hii : bondRate y1 ppy ≤ bondRate y2 ppy := by
    have hppyQ : (0 : ℚ) < (ppy : ℚ) := by exact_mod_cast hppy
    exact (div_le_div_iff_of_pos_right hppyQ).mpr h12
  by_cases hn : bondPeriods years ppy = 0
  · unfold bond_priceVal
    simp [hn]
  · have hn1 : 1 ≤ bondPeriods years ppy := Nat.one_le_iff_ne_zero.mpr hn
    have hcp : 0 ≤ bondCoupon fv c ppy := bondCoupon_nonneg fv c ppy hfv.le hc
    rw [bond_priceVal_eq_sum fv c years y1 ppy (ne_of_gt hi1) (by linarith) hn1,
      bond_priceVal_eq_sum fv c years y2 ppy (ne_of_gt hi2) (by linarith) hn1]
    apply Finset.sum_le_sum
    intro t _
    have hcf : 0 ≤ bondCF fv (bondCoupon fv c ppy) (bondPeriods years ppy) t :=
      bondCF_nonneg _ _ _ _ hfv.le hcp
    gcongr

/-- `bond_priceVal` is strictly antitone in the yield once there is at
least one coupon period. -/
theorem bond_priceVal_strictAnti (fv c years y1 y2 : ℚ) (ppy : ℕ)
    (hfv : 0 < fv) (hc : 0 ≤ c) (hppy : 0 < ppy)
    (hn1 : 1 ≤ bondPeriods years ppy) (hy1 : 0 < y1) (h12 : y1 < y2) :
    bond_priceVal fv c years y2 ppy < bond_priceVal fv c years y1 ppy := by
  have hi1 : 0 < bondRate y1 ppy := bondRate_pos y1 ppy hy1 hppy
  have hi2 : 0 < bondRate y2 ppy := bondRate_pos y2 ppy (lt_trans hy1 h12) hppy
  have hppyQ : (0 : ℚ) < (ppy : ℚ) := by exact_mod_cast hppy
  have hii : bondRate y1 ppy < bondRate y2 ppy :=
    div_lt_div_of_pos_right h12 hppyQ
  have hcp : 0 ≤ bondCoupon fv c ppy := bondCoupon_nonneg fv c ppy hfv.le hc
  rw [bond_priceVal_eq_sum fv c years y1 ppy (ne_of_gt hi1) (by linarith) hn1,
    bond_priceVal_eq_sum fv c years y2 ppy (ne_of_gt hi2) (by linarith) hn1]
  apply Finset.sum_lt_sum
  · intro t _
    have hcf : 0 ≤ bondCF fv (bondCoupon fv c ppy) (bondPeriods years ppy) t :=
      bondCF_nonneg _ _ _ _ hfv.le hcp
    gcongr
  · refine ⟨bondPeriods years ppy, Finset.mem_Icc.mpr ⟨hn1, le_refl _⟩, ?_⟩
    have hcf : 0 < bondCF fv (bondCoupon fv c ppy) (bondPeriods years ppy)
        (bondPeriods years ppy) := by
      unfold bondCF
      rw [if_neg (lt_irrefl _)]
      linarith
    gcongr

/-! ## Claim C1 -/

/-- Claim C1, counterexample: when no seed succeeds (here every `fsolve`
call raises), `internal_rate_of_return` returns the float value `np.nan` —
a numeric sentinel of the same float type as every computed rate — rather
than a distinct non-numeric "no solution found" outcome.  (cashflow.py line
91: `return np.nan`.) -/
theorem C1_cx_irr_returns_nan_sentinel :
    internal_rate_of_return [-1, 1/2] (1/10) (fun _ => SolveRes.raises) = F.nan := by
  rfl

/-- Claim C1, amended: when no seed yields a converged root with residual
below `1e-6`, `internal_rate_of_return` returns the float NaN (`np.nan`), a
numeric sentinel of the float result type; NaN is nevertheless distinct
from zero and from every finite computed rate. -/
theorem C1_amended_irr_nan (cf : List ℚ) (guess : ℚ) (solver : ℚ → SolveRes)
    (h : ∀ g ∈ [guess, 5/100, 15/100, 25/100, -1/2, 1/2, (1 : ℚ)],
      irrSeed cf (solver g) = none) :
    internal_rate_of_return cf guess solver = F.nan ∧ ∀ q : ℚ, F.nan ≠ F.fin q := by
  refine ⟨irrLoop_eq_nan cf solver _ h, ?_⟩
  intro q
  simp

/-- Witness for C1: with a solver that always raises, every seed is
rejected and the result is NaN. -/
theorem C1_amended_irr_nan_witness :
    internal_rate_of_return [-1, 1/2] (1/10) (fun _ => SolveRes.raises) = F.nan ∧
      ∀ q : ℚ, F.nan ≠ F.fin q :=
  C1_amended_irr_nan [-1, 1/2] (1/10) (fun _ => SolveRes.raises)
    (by intro g _; rfl)

/-! ## Claim C5 -/

/-- Claim C5: `internal_rate_of_return` tries exactly the ordered seed list
`[initial_guess, 0.05, 0.15, 0.25, -0.5, 0.5, 1.0]` and returns the root of
the first seed whose `fsolve` call both converges (`ier = 1`) and has
residual `|NPV(root)| < 1e-6` (`List.findSome?` is exactly this
first-match semantics), returning NaN when no seed qualifies; a solver
exception at a seed (`SolveRes.raises`) rejects only that seed. -/
theorem C5_irr_seed_order (cf : List ℚ) (guess : ℚ) (solver : ℚ → SolveRes) :
    internal_rate_of_return cf guess solver =
      (([guess, 5/100, 15/100, 25/100, -1/2, 1/2, (1 : ℚ)].findSome?
        fun g => irrSeed cf (solver g)).elim F.nan F.fin) ∧
    irrSeed cf SolveRes.raises = none :=
  ⟨irrLoop_eq_findSome cf solver _, rfl⟩

/-! ## Claim C7 -/

/-- Claim C7, counterexample: `net_present_value` on the empty cash-flow
series does not raise `InvalidParameter` (or anything) — it returns `0`
(the `np.sum` of an empty array). -/
theorem C7_cx_empty_npv_ok :
    net_present_value [] (1/10) = Except.ok 0 := by
  rfl

/-- Claim C7, amended: none of the cash-flow operations validates the
series length.  On an empty series `net_present_value` returns `0`,
`payback_period` and `discounted_payback_period` return `np.inf`,
`profitability_index` raises `IndexError` (from `cash_flows[0]`, not a
qfinbox validation error), and `internal_rate_of_return` returns whatever
root the very first `fsolve` call converges to, since the residual
`|NPV(root)| = 0` always passes. -/
theorem C7_amended_no_empty_check (rate guess root : ℚ) (solver : ℚ → SolveRes)
    (hr : 0 < rate) (hs : solver guess = SolveRes.ok root 1) :
    net_present_value [] rate = .ok 0 ∧
    payback_period [] = .ok F.posInf ∧
    discounted_payback_period [] rate = .ok F.posInf ∧
    profitability_index [] rate = .error .indexErr ∧
    internal_rate_of_return [] guess solver = F.fin root := by
  have h2 : ¬ rate ≤ 0 := not_le.mpr hr
  refine ⟨rfl, rfl, ?_, ?_, ?_⟩
  · simp [discounted_payback_period, h2]; rfl
  · simp [profitability_index, h2]
  · simp only [internal_rate_of_return, irrLoop, hs, irrSeed]
    norm_num [npvVal]

/-- Witness for C7 at a concrete rate, seed and solver. -/
theorem C7_amended_no_empty_check_witness :
    net_present_value [] (1/10) = .ok 0 ∧
    payback_period [] = .ok F.posInf ∧
    discounted_payback_period [] (1/10) = .ok F.posInf ∧
    profitability_index [] (1/10) = .error .indexErr ∧
    internal_rate_of_return [] (1/10) (fun _ => SolveRes.ok (1/10) 1) = F.fin (1/10) :=
  C7_amended_no_empty_check (1/10) (1/10) (1/10) (fun _ => SolveRes.ok (1/10) 1)
    (by norm_num) rfl

/-! ## Claim C10 -/

/-- Claim C10: `profitability_index` never checks the period-0 cash flow:
with `cash_flows[0] = 0` and a positive rate the call succeeds (no
`InvalidParameter`, no degeneracy error) and the unguarded division by
`abs(cash_flows[0]) = 0` produces a non-finite float (`inf`, `-inf` or
`nan`), never an explicit failure. -/
theorem C10_pi_unguarded_div (rest : List ℚ) (rate : ℚ) (hr : 0 < rate) :
    ∃ v, profitability_index (0 :: rest) rate = .ok v ∧ F.isFinite v = false := by
  have h2 : ¬ rate ≤ 0 := not_le.mpr hr
  refine ⟨fdiv ((rest.enum.map (fun p => p.2 / (1 + rate) ^ (p.1 + 1))).sum) |(0 : ℚ)|,
    ?_, ?_⟩
  · simp [profitability_index, h2]
  · rw [abs_zero]
    unfold fdiv
    rw [if_pos rfl]
    split_ifs <;> rfl

/-- Witness for C10: cash flows `[0, 100]` at rate `0.1` give `inf`. -/
theorem C10_pi_unguarded_div_witness :
    ∃ v, profitability_index (0 :: [100]) (1/10) = .ok v ∧ F.isFinite v = false :=
  C10_pi_unguarded_div [100] (1/10) (by norm_num)

/-! ## Claim C8 -/

/-- Claim C8: for positive `(payment, rate, periods)` the annuity-due
values are exactly the ordinary values scaled by `(1 + rate)` — the same
construction, since `annuity_due_pv`/`annuity_due_fv` are literally the
ordinary results multiplied by `(1 + rate)` (annuities.py lines 101, 131). -/
theorem C8_annuity_due_scaling (payment rate : ℚ) (periods : ℕ)
    (hp : 0 < payment) (hr : 0 < rate) (hn : 0 < periods) :
    annuity_due_pv payment rate periods
        = .ok (ordinary_annuity_pvVal payment rate periods * (1 + rate)) ∧
    ordinary_annuity_pv payment rate periods
        = .ok (ordinary_annuity_pvVal payment rate periods) ∧
    annuity_due_fv payment rate periods
        = .ok (ordinary_annuity_fvVal payment rate periods * (1 + rate)) ∧
    ordinary_annuity_fv payment rate periods
        = .ok (ordinary_annuity_fvVal payment rate periods) := by
  have h1 : ¬ payment ≤ 0 := not_le.mpr hp
  have h2 : ¬ rate ≤ 0 := not_le.mpr hr
  have h3 : periods ≠ 0 := Nat.pos_iff_ne_zero.mp hn
  refine ⟨?_, ?_, ?_, ?_⟩ <;>
    simp [annuity_due_pv, ordinary_annuity_pv, annuity_due_fv, ordinary_annuity_fv,
      Except.map, h1, h2, h3]

/-- Witness for C8 at the spec's concrete scenario
`(payment, rate, periods) = (1000, 0.05, 10)`. -/
theorem C8_annuity_due_scaling_witness :
    annuity_due_pv 1000 (1/20) 10
        = .ok (ordinary_annuity_pvVal 1000 (1/20) 10 * (1 + 1/20)) ∧
    ordinary_annuity_pv 1000 (1/20) 10 = .ok (ordinary_annuity_pvVal 1000 (1/20) 10) ∧
    annuity_due_fv 1000 (1/20) 10
        = .ok (ordinary_annuity_fvVal 1000 (1/20) 10 * (1 + 1/20)) ∧
    ordinary_annuity_fv 1000 (1/20) 10 = .ok (ordinary_annuity_fvVal 1000 (1/20) 10) :=
  C8_annuity_due_scaling 1000 (1/20) 10 (by norm_num) (by norm_num) (by norm_num)

/-! ## Claim C6 -/

/-- Claim C6, counterexample: with `annual_rate = 0` (the only way the
periodic rate `annual_rate / payments_per_year` is exactly zero in exact
arithmetic) `loan_payment` does not return `principal / total_payments`:
`validate_positive(annual_rate)` raises `ValidationError` before the
`rate_per_period == 0` branch can run (loans.py lines 38-47). -/
theorem C6_cx_zero_rate_validated :
    loan_payment 1000 0 1 12 = .error .validation ∧
      loan_payment 1000 0 1 12 ≠ .ok ((1000 : ℝ) / 12) := by
  constructor
  · norm_num [loan_payment]
  · norm_num [loan_payment]
    intro h
    exact Except.noConfusion h

/-- Claim C6, amended: the `rate_per_period == 0` branch returning
`principal / num_payments` exists in `loan_payment` but is unreachable in
exact arithmetic: validation rejects `annual_rate = 0` with
`ValidationError`, and for every validated input the periodic rate is
nonzero, so the general annuity formula branch is the one evaluated. -/
theorem C6_amended_zero_rate_branch (P years ra : ℝ) (ppy : ℕ)
    (hP : 0 < P) (hy : 0 < years) (hppy : 0 < ppy) (hra : 0 < ra) :
    loan_payment P 0 years ppy = .error .validation ∧
    ra / (ppy : ℝ) ≠ 0 ∧
    loan_payment P ra years ppy =
      .ok (P * ((ra / ppy) * (1 + ra / ppy) ^ (years * (ppy : ℝ)))
        / ((1 + ra / ppy) ^ (years * (ppy : ℝ)) - 1)) := by
  have hPn : ¬ P ≤ 0 := not_le.mpr hP
  have hyn : ¬ years ≤ 0 := not_le.mpr hy
  have hppy0 : ppy ≠ 0 := Nat.pos_iff_ne_zero.mp hppy
  have hppyR : (ppy : ℝ) ≠ 0 := Nat.cast_ne_zero.mpr hppy0
  have hr : ra / (ppy : ℝ) ≠ 0 := div_ne_zero (ne_of_gt hra) hppyR
  refine ⟨?_, hr, ?_⟩
  · simp [loan_payment, hPn]
  · simp [loan_payment, loan_paymentVal, hPn, hyn, hppy0, not_le.mpr hra, hr]

/-- Witness for C6 at `(principal, years, ppy, rate) = (1000, 1, 12, 0.05)`. -/
theorem C6_amended_zero_rate_branch_witness :
    loan_payment 1000 0 1 12 = .error .validation ∧
    (5 / 100 : ℝ) / ((12 : ℕ) : ℝ) ≠ 0 ∧
    loan_payment 1000 (5/100) 1 12 =
      .ok ((1000 : ℝ) * ((5/100 / 12) * (1 + 5/100 / 12) ^ ((1 : ℝ) * ((12 : ℕ) : ℝ)))
        / ((1 + 5/100 / 12) ^ ((1 : ℝ) * ((12 : ℕ) : ℝ)) - 1)) :=
  C6_amended_zero_rate_branch 1000 1 (5/100) 12
    (by norm_num) (by norm_num) (by norm_num) (by norm_num)

/-! ## Claim C4 -/

/-- Claim C4, counterexample: with `years_to_maturity = 2/5` and one
payment per year (a valid bond per the claim: all parameters positive,
`payments_per_year ≥ 1`), `int(years * ppy) = 0` coupon periods remain and
`bond_price` is the constant `face_value`, so it is not strictly decreasing
in the yield: two distinct valid yields give the same price. -/
theorem C4_cx_price_constant :
    bond_priceVal 1000 (6/100) (2/5) (1/100) 1 = bond_priceVal 1000 (6/100) (2/5) (1/2) 1
      ∧ (0 : ℚ) < 1/100 ∧ (1 : ℚ)/100 < 1/2 := by
  refine ⟨?_, by norm_num, by norm_num⟩
  have hn : bondPeriods (2/5) 1 = 0 := by norm_num [bondPeriods]
  norm_num [bond_priceVal, hn]

/-- Claim C4, amended: `bond_price` is strictly decreasing in the yield for
every valid bond that has at least one coupon period
(`int(years × payments_per_year) ≥ 1`); with zero coupon periods the price
degenerates to the constant `face_value`. -/
theorem C4_amended_price_strictAnti (fv c years y1 y2 : ℚ) (ppy : ℕ)
    (hfv : 0 < fv) (hc : 0 < c) (hppy : 0 < ppy)
    (hn : 1 ≤ bondPeriods years ppy) (hy1 : 0 < y1) (h12 : y1 < y2) :
    bond_priceVal fv c years y2 ppy < bond_priceVal fv c years y1 ppy :=
  bond_priceVal_strictAnti fv c years y1 y2 ppy hfv hc.le hppy hn hy1 h12

/-- Witness for C4 at the spec's concrete bond
`(face, coupon, years, ppy) = (1000, 0.06, 10, 2)` and yields `6% < 8%`. -/
theorem C4_amended_price_strictAnti_witness :
    bond_priceVal 1000 (6/100) 10 (8/100) 2 < bond_priceVal 1000 (6/100) 10 (6/100) 2 :=
  C4_amended_price_strictAnti 1000 (6/100) 10 (6/100) (8/100) 2
    (by norm_num) (by norm_num) (by norm_num) (by norm_num [bondPeriods])
    (by norm_num) (by norm_num)

/-! ## Claim C9 -/

/-- Claim C9, counterexample: for the valid bond parameters
`(face, coupon, years, ytm, ppy) = (1000, 0.06, 2/5, 0.08, 1)` (all
strictly positive) there are `int(2/5 · 1) = 0` coupon periods, the
duration loop body never runs, and the weights sum to `0`, not `1` (off by
far more than `1e-9`). -/
theorem C9_cx_weightSum_zero :
    bond_duration_weightSum 1000 (6/100) (2/5) (8/100) 1 = 0 ∧
      ¬ |bond_duration_weightSum 1000 (6/100) (2/5) (8/100) 1 - 1| < 1/1000000000 := by
  have hn : bondPeriods (2/5) 1 = 0 := by norm_num [bondPeriods]
  have h0 : bond_duration_weightSum 1000 (6/100) (2/5) (8/100) 1 = 0 := by
    unfold bond_duration_weightSum
    rw [hn, Finset.Icc_eq_empty (by norm_num), Finset.sum_empty]
  refine ⟨h0, ?_⟩
  rw [h0]
  norm_num

/-- Claim C9, amended: for every valid bond with at least one coupon period
(`int(years × payments_per_year) ≥ 1`), the per-period discounted-cash-flow
weights of `bond_duration` sum to exactly 1 (hence within `1e-9`). -/
theorem C9_amended_weightSum_one (fv c years ytm : ℚ) (ppy : ℕ)
    (hfv : 0 < fv) (hc : 0 < c) (hytm : 0 < ytm) (hppy : 0 < ppy)
    (hn : 1 ≤ bondPeriods years ppy) :
    bond_duration_weightSum fv c years ytm ppy = 1 := by
  have hi : 0 < bondRate ytm ppy := bondRate_pos ytm ppy hytm hppy
  have hpx : 0 < bond_priceVal fv c years ytm ppy :=
    bond_priceVal_pos fv c years ytm ppy hfv hc.le hytm hppy
  unfold bond_duration_weightSum bondWeight
  rw [← Finset.sum_div,
    ← bond_priceVal_eq_sum fv c years ytm ppy (ne_of_gt hi) (by linarith) hn]
  exact div_self (ne_of_gt hpx)

/-- Witness for C9 at the spec's concrete bond
`(1000, 0.06, 10, 0.08, 2)`. -/
theorem C9_amended_weightSum_one_witness :
    bond_duration_weightSum 1000 (6/100) 10 (8/100) 2 = 1 :=
  C9_amended_weightSum_one 1000 (6/100) 10 (8/100) 2
    (by norm_num) (by norm_num) (by norm_num) (by norm_num) (by norm_num [bondPeriods])

/-! ## Claim C2 -/

/-- Claim C2, counterexample: for `(price, face, coupon, years, ppy)
= (100, 1000, 0.06, 1, 1)` the yield solving `bond_price = 100` is far
above the bracket `[0.001, 1.0]`, and `bond_yield_to_maturity` fails with
scipy's builtin `ValueError` ("f(a) and f(b) must have different signs"),
not with the engine's `CalculationError` (`Err.calculation`), which is
raised nowhere in the code. -/
theorem C2_cx_value_error_kind :
    bond_yield_to_maturity 0 100 1000 (6/100) 1 1 = Except.error Err.valueErr ∧
      Err.valueErr ≠ Err.calculation := by
  constructor
  · have hn : bondPeriods 1 1 = 1 := by norm_num [bondPeriods]
    norm_num [bond_yield_to_maturity, bond_priceVal, hn, bondCoupon, bondRate]
  · decide

/-- Claim C2, amended: whenever the sought yield lies outside the bracket
`[0.001, 1.0]` — that is, the target price is below the bond price at yield
`1.0` or above the bond price at yield `0.001` — `bond_yield_to_maturity`
does fail rather than extrapolate, but the failure is the `ValueError`
raised by `brentq` on a same-sign bracket, not a `CalculationError` of the
engine's taxonomy. -/
theorem C2_amended_out_of_bracket (root price fv c years : ℚ) (ppy : ℕ)
    (hp : 0 < price) (hfv : 0 < fv) (hc : 0 < c) (hy : 0 < years) (hppy : 0 < ppy)
    (hout : price < bond_priceVal fv c years 1 ppy
      ∨ bond_priceVal fv c years (1/1000) ppy < price) :
    bond_yield_to_maturity root price fv c years ppy = Except.error Err.valueErr := by
  have hanti : bond_priceVal fv c years 1 ppy ≤ bond_priceVal fv c years (1/1000) ppy :=
    bond_priceVal_anti fv c years (1/1000) 1 ppy hfv hc.le hppy (by norm_num) (by norm_num)
  have hprod : 0 < (bond_priceVal fv c years (1/1000) ppy - price)
      * (bond_priceVal fv c years 1 ppy - price) := by
    rcases hout with h | h
    · exact mul_pos (by linarith) (by linarith)
    · exact mul_pos_of_neg_of_neg (by linarith) (by linarith)
  unfold bond_yield_to_maturity
  rw [if_neg (not_le.mpr hp), if_neg (not_le.mpr hfv), if_neg (not_le.mpr hc),
    if_neg (not_le.mpr hy), if_neg (Nat.pos_iff_ne_zero.mp hppy)]
  simp only [if_pos hprod]

/-- Witness for C2: a one-year 6% bond priced at 100 has its yield far
above the bracket, and the call fails with `ValueError`. -/
theorem C2_amended_out_of_bracket_witness :
    bond_yield_to_maturity 0 100 1000 (6/100) 1 1 = Except.error Err.valueErr :=
  C2_amended_out_of_bracket 0 100 1000 (6/100) 1 1
    (by norm_num) (by norm_num) (by norm_num) (by norm_num) (by norm_num)
    (Or.inl (by
      have hn : bondPeriods 1 1 = 1 := by norm_num [bondPeriods]
      norm_num [bond_priceVal, hn, bondCoupon, bondRate]))

/-! ## Claim C3 -/

/-- With zero payments remaining the closed-form balance is zero. -/
theorem balAt_zero (r pay : ℝ) : balAt r pay 0 = 0 := by
  simp [balAt]

/-- With at least one payment remaining the closed-form balance is
strictly positive. -/
theorem balAt_pos (r pay : ℝ) (hr : 0 < r) (hpay : 0 < pay) (m : ℕ) (hm : m ≠ 0) :
    0 < balAt r pay m := by
  have hu : (1 : ℝ) < 1 + r := by linarith
  have h1 : (1 : ℝ) < (1 + r) ^ m := one_lt_pow₀ hu hm
  have h2 : (0 : ℝ) < (1 + r) ^ m := pow_pos (by linarith) m
  exact div_pos (mul_pos hpay (by linarith)) (mul_pos hr h2)

/-- The closed-form balance grows with the number of remaining payments. -/
theorem balAt_mono (r pay : ℝ) (hr : 0 < r) (hpay : 0 < pay) (m : ℕ) :
    balAt r pay m ≤ balAt r pay (m + 1) := by
  have hu : (0 : ℝ) < 1 + r := by linarith
  have hm : (0 : ℝ) < (1 + r) ^ m := pow_pos hu m
  have hm1 : (0 : ℝ) < (1 + r) ^ (m + 1) := pow_pos hu (m + 1)
  unfold balAt
  rw [div_le_div_iff₀ (by positivity) (by positivity), pow_succ]
  nlinarith [mul_pos (mul_pos hpay (mul_pos hr hr)) hm]

/-- One iteration of the schedule loop sends the closed-form balance for
`m + 1` remaining payments to the one for `m` remaining payments:
`new balance = old − (pay − old·r)`. -/
theorem balAt_step (r pay : ℝ) (hr : 0 < r) (m : ℕ) :
    balAt r pay (m + 1) - (pay - balAt r pay (m + 1) * r) = balAt r pay m := by
  have hu : (0 : ℝ) < 1 + r := by linarith
  have hm : ((1 + r) ^ m) ≠ 0 := ne_of_gt (pow_pos hu m)
  have hm1 : ((1 + r) ^ (m + 1)) ≠ 0 := ne_of_gt (pow_pos hu (m + 1))
  unfold balAt
  field_simp
  ring

/-- Invariant of the amortization loop started at the closed-form balance
for `m ≥ 1` remaining payments: the produced balance column is nonempty,
starts at the closed-form balance for `m − 1` remaining payments, is
non-increasing, nonnegative, and ends at exactly `0`. -/
theorem amortRows_spec (r pay : ℝ) (hr : 0 < r) (hpay : 0 < pay) :
    ∀ m : ℕ, 1 ≤ m →
      (balances (amortRows r pay m (balAt r pay m)) ≠ [] ∧
        (balances (amortRows r pay m (balAt r pay m))).head?
          = some (balAt r pay (m - 1))) ∧
      List.Chain' (fun a b => b ≤ a) (balances (amortRows r pay m (balAt r pay m))) ∧
      (∀ x ∈ balances (amortRows r pay m (balAt r pay m)), 0 ≤ x) ∧
      (balances (amortRows r pay m (balAt r pay m))).getLast? = some 0 := by
  intro m hm
  induction m, hm using Nat.le_induction with
  | base =>
      have hstep := balAt_step r pay hr 0
      rw [balAt_zero] at hstep
      simp only [amortRows, hstep]
      simp [balances, balAt_zero]
  | succ m hm ih =>
      have hstep := balAt_step r pay hr m
      have hpos : 0 < balAt r pay m :=
        balAt_pos r pay hr hpay m (Nat.one_le_iff_ne_zero.mp hm)
      simp only [amortRows, hstep]
      rw [if_neg (not_lt.mpr hpos.le), if_neg (ne_of_gt hpos)]
      obtain ⟨⟨hne, hhead⟩, hchain, hnonneg, hlast⟩ := ih
      obtain ⟨b, l', hbl⟩ := List.exists_cons_of_ne_nil hne
      have hb : b = balAt r pay (m - 1) := by
        rw [hbl] at hhead
        simpa using hhead
      refine ⟨⟨by simp [balances], by simp [balances]⟩, ?_, ?_, ?_⟩
      · show List.Chain' (fun a b => b ≤ a)
          (balAt r pay m :: balances (amortRows r pay m (balAt r pay m)))
        rw [List.chain'_cons']
        refine ⟨?_, hchain⟩
        intro y hy
        rw [hbl] at hy
        simp only [List.head?_cons, Option.mem_def, Option.some.injEq] at hy
        subst hy
        rw [hb]
        calc balAt r pay (m - 1) ≤ balAt r pay (m - 1 + 1) :=
              balAt_mono r pay hr hpay (m - 1)
          _ = balAt r pay m := by rw [Nat.sub_add_cancel hm]
      · intro x hx
        simp only [balances, List.map_cons, List.mem_cons] at hx
        rcases hx with hx | hx
        · subst hx; exact hpos.le
        · exact hnonneg x hx
      · show (balAt r pay m :: balances (amortRows r pay m (balAt r pay m))).getLast?
          = some 0
        rw [hbl] at hlast ⊢
        rw [List.getLast?_cons_cons, hlast]

/-- Algebraic round trip between the payment formula and the closed-form
balance: paying `A·(r·x)/(x−1)` back through the balance formula recovers
`A`. -/
theorem pay_roundtrip (A r x : ℝ) (hr : r ≠ 0) (hx : x ≠ 0) (hx1 : x - 1 ≠ 0) :
    A * (r * x) / (x - 1) * (x - 1) / (r * x) = A := by
  field_simp

/-- Claim C3, amended: for every valid loan whose contractual payment count
`years × payments_per_year` is a whole number `N ≥ 1`, the schedule built by
`amortization_schedule` has a nonempty Balance column that is
non-increasing, never negative, and exactly `0` at the final entry. -/
theorem C3_amended_schedule_invariant (P ra years : ℝ) (ppy N : ℕ)
    (hP : 0 < P) (hra : 0 < ra) (hy : 0 < years) (hppy : 0 < ppy)
    (hN : 1 ≤ N) (hint : years * (ppy : ℝ) = (N : ℝ)) :
    ∃ l, amortization_schedule P ra years ppy = .ok l ∧
      balances l ≠ [] ∧
      List.Chain' (fun a b => b ≤ a) (balances l) ∧
      (∀ x ∈ balances l, 0 ≤ x) ∧
      (balances l).getLast? = some 0 := by
  have hppyR : (0 : ℝ) < (ppy : ℝ) := by exact_mod_cast hppy
  have hr : 0 < ra / (ppy : ℝ) := div_pos hra hppyR
  have hrne : ¬ (ra / (ppy : ℝ) = 0) := ne_of_gt hr
  have hu : (0 : ℝ) < 1 + ra / (ppy : ℝ) := by linarith
  have hx : (0 : ℝ) < (1 + ra / (ppy : ℝ)) ^ N := pow_pos hu N
  have hx1 : (1 : ℝ) < (1 + ra / (ppy : ℝ)) ^ N :=
    one_lt_pow₀ (by linarith) (Nat.one_le_iff_ne_zero.mp hN)
  have hpv : loan_paymentVal P ra years ppy
      = P * ((ra / (ppy : ℝ)) * (1 + ra / (ppy : ℝ)) ^ N)
        / ((1 + ra / (ppy : ℝ)) ^ N - 1) := by
    unfold loan_paymentVal
    rw [if_neg hrne, hint, Real.rpow_natCast]
  have hpay : 0 < P * ((ra / (ppy : ℝ)) * (1 + ra / (ppy : ℝ)) ^ N)
      / ((1 + ra / (ppy : ℝ)) ^ N - 1) :=
    div_pos (mul_pos hP (mul_pos hr hx)) (by linarith)
  have hbal : balAt (ra / (ppy : ℝ))
      (P * ((ra / (ppy : ℝ)) * (1 + ra / (ppy : ℝ)) ^ N)
        / ((1 + ra / (ppy : ℝ)) ^ N - 1)) N = P := by
    unfold balAt
    exact pay_roundtrip P (ra / (ppy : ℝ)) ((1 + ra / (ppy : ℝ)) ^ N)
      hrne hx.ne' (by linarith)
  obtain ⟨⟨hne, _⟩, hchain, hnonneg, hlast⟩ :=
    amortRows_spec (ra / (ppy : ℝ))
      (P * ((ra / (ppy : ℝ)) * (1 + ra / (ppy : ℝ)) ^ N)
        / ((1 + ra / (ppy : ℝ)) ^ N - 1)) hr hpay N hN
  rw [hbal] at hne hchain hnonneg hlast
  refine ⟨_, ?_, hne, hchain, hnonneg, hlast⟩
  simp only [amortization_schedule]
  rw [if_neg (not_le.mpr hP), if_neg (not_le.mpr hra), if_neg (not_le.mpr hy),
    if_neg (Nat.pos_iff_ne_zero.mp hppy), hpv, hint, Int.floor_natCast,
    Int.toNat_natCast]

/-- Witness for C3 amended: a 2-year annual loan of 1000 at 12%. -/
theorem C3_amended_schedule_invariant_witness :
    ∃ l, amortization_schedule 1000 (12/100) 2 1 = .ok l ∧
      balances l ≠ [] ∧
      List.Chain' (fun a b => b ≤ a) (balances l) ∧
      (∀ x ∈ balances l, 0 ≤ x) ∧
      (balances l).getLast? = some 0 :=
  C3_amended_schedule_invariant 1000 (12/100) 2 1 2
    (by norm_num) (by norm_num) (by norm_num) (by norm_num) (by norm_num)
    (by norm_num)

/-- Claim C3, counterexample: `(principal, annual_rate, years, ppy)
= (1000, 0.21, 1.5, 1)` is a valid loan per the claim (all inputs
positive), but the contractual count `years × ppy = 1.5` is fractional:
the payment is computed with the fractional exponent
`1.21 ^ 1.5 = 1.331`, only `int(1.5) = 1` schedule row is built, and the
final (single) entry's balance is `121000/331 ≈ 365.56`, not `0`. -/
theorem C3_cx_fractional_term :
    amortization_schedule 1000 (21/100) (3/2) 1 =
      .ok [⟨279510/331, 210, 210000/331, 121000/331⟩] ∧
    ((121000 : ℝ)/331) ≠ 0 := by
  have hpow : ((1 : ℝ) + 21/100/((1 : ℕ) : ℝ)) ^ ((3/2 : ℝ) * ((1 : ℕ) : ℝ))
      = 1331/1000 := by
    have hcast : ((1 : ℕ) : ℝ) = 1 := by norm_num
    rw [hcast, mul_one]
    have h2 : (1 : ℝ) + 21/100/1 = (11/10) ^ (2 : ℕ) := by norm_num
    rw [h2, ← Real.rpow_natCast ((11 : ℝ)/10) 2,
      ← Real.rpow_mul (by norm_num : (0 : ℝ) ≤ 11/10)]
    have h3 : ((2 : ℕ) : ℝ) * (3/2) = ((3 : ℕ) : ℝ) := by norm_num
    rw [h3, Real.rpow_natCast]
    norm_num
  have hpv : loan_paymentVal 1000 (21/100) (3/2) 1 = 279510/331 := by
    simp only [loan_paymentVal]
    rw [if_neg (by norm_num : ¬((21 : ℝ)/100/((1 : ℕ) : ℝ) = 0)), hpow]
    norm_num
  constructor
  · simp only [amortization_schedule]
    rw [if_neg (by norm_num : ¬((1000 : ℝ) ≤ 0)),
      if_neg (by norm_num : ¬((21 : ℝ)/100 ≤ 0)),
      if_neg (by norm_num : ¬((3 : ℝ)/2 ≤ 0)),
      if_neg (by norm_num : (1 : ℕ) ≠ 0), hpv]
    have htot : ((⌊(3/2 : ℝ) * ((1 : ℕ) : ℝ)⌋).toNat) = 1 := by norm_num
    rw [htot]
    norm_num [amortRows, Entry.mk.injEq]
  · norm_num
